/-
Verification of the expense-tracker application (src/app.py) against its
natural-language specification.

Shallow embedding conventions:
* SQLite `REAL` amounts are modelled as exact rationals (ℚ); the tolerance-style
  equalities of the spec become exact equalities.
* The expenses table is a `List Expense`; each route handler that touches it
  becomes a pure function on that list.
* Python strings are Lean `String`s; `str.strip` / `str.lower` are modelled
  on their ASCII fragment, which covers every string the claims mention.
* `pd.to_datetime` followed by `.dt.to_period('M').astype(str)` is modelled
  by `parseMonth`, a strict ISO `YYYY-MM-DD` calendar-date validator that
  returns the `YYYY-MM` truncation, and fails (like the uncaught pandas
  parse error) on malformed dates.
-/
import Mathlib

namespace ExpenseTracker

/-- A row of the `expenses` table (`CREATE TABLE expenses` in `init_db`). -/
structure Expense where
  id : Nat
  date : String
  category : String
  amount : ℚ
  description : String
  user_id : Nat
  deriving Repr, DecidableEq

/-! ### Python string primitives (ASCII fragment) -/

/-- Whitespace characters recognised by Python `str.strip()` (ASCII part). -/
def isPySpace (c : Char) : Bool :=
  c = ' ' ∨ c = '\t' ∨ c = '\n' ∨ c = '\r' ∨ c = '\x0b' ∨ c = '\x0c'

/-- Python `str.strip()`: drop leading and trailing whitespace. -/
def pyStrip (s : String) : String :=
  String.mk (((s.toList.dropWhile isPySpace).reverse.dropWhile isPySpace).reverse)

/-- ASCII lower-casing of one character, as Python `str.lower()` does on ASCII. -/
def chLower (c : Char) : Char :=
  if 'A' ≤ c ∧ c ≤ 'Z' then Char.ofNat (c.toNat + 32) else c

/-- Python `str.lower()` (ASCII fragment). -/
def strLower (s : String) : String :=
  String.mk (s.toList.map chLower)

/-- Predicate `startsWithL hay needle`: `needle` starts `hay`. -/
def startsWithL : List Char → List Char → Bool
  | _, [] => true
  | [], _ :: _ => false
  | h :: t, n :: ns => h == n && startsWithL t ns

/-- Predicate `listHas hay needle`: `needle` occurs contiguously inside `hay`
(the Python string test `needle in hay`, over char lists). -/
def listHas : List Char → List Char → Bool
  | [], n => n.isEmpty
  | h :: t, n => startsWithL (h :: t) n || listHas t n

/-- Python `needle in hay` for strings. -/
def strContains (hay needle : String) : Bool :=
  listHas hay.toList needle.toList

/-- Python `any(word in hay for word in words)`. -/
def containsAny (hay : String) (words : List String) : Bool :=
  words.any (fun w => strContains hay w)

/-! ### Date parsing (the month derivation of aggregation) -/

def digitsVal (l : List Char) : Nat :=
  l.foldl (fun a c => 10 * a + (c.toNat - 48)) 0

def isLeap (y : Nat) : Bool :=
  (y % 4 = 0 ∧ y % 100 ≠ 0) ∨ y % 400 = 0

def daysInMonth (y m : Nat) : Nat :=
  if m = 2 then (if isLeap y then 29 else 28)
  else if m = 4 ∨ m = 6 ∨ m = 9 ∨ m = 11 then 30
  else 31

/-- Model of `pd.to_datetime(date)` followed by the period-M string conversion on one
date string: accept a valid ISO `YYYY-MM-DD` calendar date and return its
`YYYY-MM` truncation; `none` models the uncaught pandas parse error. -/
def parseMonth (d : String) : Option String :=
  match d.toList with
  | [y1, y2, y3, y4, '-', m1, m2, '-', d1, d2] =>
    if (y1.isDigit ∧ y2.isDigit ∧ y3.isDigit ∧ y4.isDigit ∧
        m1.isDigit ∧ m2.isDigit ∧ d1.isDigit ∧ d2.isDigit) then
      let y := digitsVal [y1, y2, y3, y4]
      let m := digitsVal [m1, m2]
      let dd := digitsVal [d1, d2]
      if 1 ≤ m ∧ m ≤ 12 ∧ 1 ≤ dd ∧ dd ≤ daysInMonth y m then
        some (String.mk [y1, y2, y3, y4, '-', m1, m2])
      else none
    else none
  | _ => none

/-! ### Aggregation engine (`index` view, src/app.py lines 104-118) -/

/-- Add `v` to the entry of key `k` in an association list, appending a new
entry when the key is absent.  This is the grouped summation underlying
`df.groupby(col).amount.sum().to_dict()` (pandas additionally sorts the
keys; a dict is order-insensitive, so the key order is immaterial). -/
def addToAssoc : List (String × ℚ) → String → ℚ → List (String × ℚ)
  | [], k, v => [(k, v)]
  | (k', v') :: rest, k, v =>
    if k' = k then (k', v' + v) :: rest else (k', v') :: addToAssoc rest k v

/-- Grouped sum: `groupSum l` sums the second components of `l` grouped by the first. -/
def groupSum (l : List (String × ℚ)) : List (String × ℚ) :=
  l.foldl (fun acc p => addToAssoc acc p.1 p.2) []

/-- Sum of the values of a grouped mapping (`sum(d.values())`). -/
def sumVals (l : List (String × ℚ)) : ℚ :=
  (l.map Prod.snd).sum

/-- The month column of the data frame: month key paired with amount for every row;
`none` as soon as one date fails to parse (`pd.to_datetime` raises, aborting
the whole view). -/
def monthsOf : List Expense → Option (List (String × ℚ))
  | [] => some []
  | e :: es =>
    match parseMonth e.date with
    | none => none
    | some m =>
      match monthsOf es with
      | none => none
      | some rest => some ((m, e.amount) :: rest)

/-- Result of the aggregation in the `index` view. -/
structure Agg where
  total : ℚ
  by_category : List (String × ℚ)
  by_month : List (String × ℚ)
  deriving Repr, DecidableEq

/-- The aggregation computed by the `index` view over the expense
rows: `total` the sum of the amount column, `by_category` and `by_month` the two
grouped sums.  `none` models the uncaught date-parse error. -/
def aggregate (exps : List Expense) : Option Agg :=
  match monthsOf exps with
  | none => none
  | some months =>
    some { total := (exps.map Expense.amount).sum
           by_category := groupSum (exps.map fun e => (e.category, e.amount))
           by_month := groupSum months }

/-! ### Category classifier (src/app.py lines 53-78) -/

/-- The fixed 12-sentence training corpus. -/
def training_data : List (String × String) :=
  [("Uber ride to work", "Transport"),
   ("Ola taxi", "Transport"),
   ("Zomato food order", "Food"),
   ("McDonald\x27s lunch", "Food"),
   ("Electricity bill", "Utilities"),
   ("Water bill", "Utilities"),
   ("Movie tickets", "Entertainment"),
   ("Netflix subscription", "Entertainment"),
   ("Grocery shopping", "Groceries"),
   ("Vegetables from market", "Groceries"),
   ("Flight ticket", "Travel"),
   ("Hotel booking", "Travel")]

/-- The label set the fitted model can emit (`model.classes_`, i.e. the
distinct training labels; sklearn stores them sorted, but the order is only
a tie-breaking artifact and immaterial to every property proved here). -/
def classes : List String := (training_data.map Prod.snd).dedup

/-- First class with the maximal score wins, as `np.argmax` ties do. -/
def argmaxClass (score : String → ℚ) : List String → Option String
  | [] => none
  | c :: cs => some (cs.foldl (fun best x => if score best < score x then x else best) c)

/-- Model of `predict_category` (src/app.py lines 74-78).  The TF-IDF vectorizer and
logistic-regression coefficients are deterministic numeric artifacts of the
one-time startup fit on `training_data`; the per-class decision score they
induce is abstracted as the parameter `score` — every property claimed of
the classifier holds for every such score function, so nothing depends on
the particular fitted coefficients. -/
def predict_category (score : String → String → ℚ) (description : String) :
    Option String :=
  if pyStrip description = "" then none
  else argmaxClass (score description) classes

/-! ### The `add` route (src/app.py lines 161-181) -/

/-- Decimal fragment of Python `float` on a sign-stripped char list:
`digits`, `digits.digits`, `.digits` or `digits.`. -/
def pyFloatCore (l : List Char) : Option ℚ :=
  let ip := l.takeWhile Char.isDigit
  let rest := l.dropWhile Char.isDigit
  match rest with
  | [] => if ip.isEmpty then none else some (digitsVal ip)
  | '.' :: fp =>
    if fp.all Char.isDigit ∧ ¬(ip.isEmpty ∧ fp.isEmpty) then
      some ((digitsVal ip : ℚ) + (digitsVal fp : ℚ) / (10 : ℚ) ^ fp.length)
    else none
  | _ => none

/-- Python `float(s)` on a string: strip, optional sign, decimal literal;
`none` models the `ValueError` that `except: amount = 0.0` catches.
(Exotic float syntax — exponents, `inf`, `nan`, underscores — is outside
the decimal fragment and not needed by any claim.) -/
def pyFloat (s : String) : Option ℚ :=
  match (pyStrip s).toList with
  | '-' :: rest => (pyFloatCore rest).map (fun q => -q)
  | '+' :: rest => pyFloatCore rest
  | l => pyFloatCore l

/-- The POST branch of the `add` route: `today` models
the `datetime.today()` date string, the four `Option String`s the form
fields (`None` when absent), `nextId` the autoincrement rowid.  `float(amount)`
failures (missing field included: `float(None)` raises `TypeError`) fall back
to `0.0`; an empty/`None` predicted category falls back to `"Uncategorized"`;
the row is always inserted. -/
def add (score : String → String → ℚ) (today : String)
    (dateF categoryF amountF descF : Option String) (uid nextId : Nat)
    (table : List Expense) : List Expense :=
  let date := match dateF with
    | some d => if d = "" then today else d
    | none => today
  let category := pyStrip (categoryF.getD "")
  let description := descF.getD ""
  let cat : Option String :=
    if category = "" ∧ description ≠ "" then predict_category score description
    else some category
  let amount : ℚ := (amountF.bind pyFloat).getD 0
  let storedCat := match cat with
    | some c => if c = "" then "Uncategorized" else c
    | none => "Uncategorized"
  table ++ [{ id := nextId, date := date, category := storedCat,
              amount := amount, description := description, user_id := uid }]

/-! ### The `delete` route (src/app.py lines 186-191) -/

/-- Model of `DELETE FROM expenses WHERE id=? AND user_id=?`. -/
def delete (table : List Expense) (id uid : Nat) : List Expense :=
  table.filter (fun e => !(e.id == id && e.user_id == uid))

/-! ### Reply engine (`ai_coach_chat`, src/app.py lines 210-260) -/

def greetings (u : String) : List String :=
  ["Hey " ++ u ++ "! 👋 How’s your day going?",
   "Hi " ++ u ++ ", hope you\x27re having a great day! ☀",
   "Hello " ++ u ++ "! Ready to crush those financial goals? 💪"]

def jokes (u : String) : List String :=
  ["😂 Hey " ++ u ++ ", why don’t skeletons fight each other? They don’t have the guts!",
   "🤣 " ++ u ++ ", why was the math book sad? Because it had too many problems!",
   "😆 Here\x27s one for you " ++ u ++ ": Why did the scarecrow win an award? Because he was outstanding in his field!"]

def saving_tips (u : String) : List String :=
  ["💡 Tip for you " ++ u ++ ": Try the 50/30/20 rule — 50% needs, 30% wants, 20% savings.",
   "💡 " ++ u ++ ", avoid impulse purchases by waiting 24 hours before buying non-essentials.",
   "💡 Track your daily spending, " ++ u ++ ", it makes controlling expenses much easier!"]

def motivation (u : String) : List String :=
  ["🔥 You\x27re doing awesome, " ++ u ++ "! Keep pushing towards your savings goals.",
   "🚀 Remember " ++ u ++ ", small savings add up to big wins over time.",
   "💪 Stay disciplined, " ++ u ++ "! Your future self will thank you."]

def default_responses (u : String) : List String :=
  ["Hi " ++ u ++ ", I think you should track your spending more closely.",
   u ++ ", categorizing your expenses can really help you see where your money goes.",
   "Want me to suggest a weekly budget for you, " ++ u ++ "?"]

/-- The single non-randomized affirmation reply. -/
def affirmation (u : String) : String :=
  "Great, " ++ u ++ "! Let’s make this your most financially smart month yet! 💪"

/-- Model of `random.choice(pool)`: the drawn index is abstracted as `r` modulo the
pool size, so quantifying over `r` covers every possible draw. -/
def pick (pool : List String) (r : Nat) : String :=
  pool.getD (r % pool.length) ""

/-- The `ai_coach_chat` handler: lowercase and strip the message, then the
first matching intent wins; `r` abstracts the random draw. -/
def reply (message username : String) (r : Nat) : String :=
  let m := pyStrip (strLower message)
  if containsAny m ["hello", "hi", "hey"] then pick (greetings username) r
  else if strContains m "joke" then pick (jokes username) r
  else if containsAny m ["save", "control", "spending tips", "reduce expense"] then
    pick (saving_tips username) r
  else if containsAny m ["motivate", "encourage", "inspire"] then
    pick (motivation username) r
  else if containsAny m ["yes", "ok", "sure"] then affirmation username
  else pick (default_responses username) r

/-! ## Aggregation lemmas -/

theorem sumVals_addToAssoc (acc : List (String × ℚ)) (k : String) (v : ℚ) :
    sumVals (addToAssoc acc k v) = sumVals acc + v := by
  induction acc with
  | nil => simp [addToAssoc, sumVals]
  | cons p rest ih =>
    obtain ⟨k', v'⟩ := p
    by_cases h : k' = k
    · simp [addToAssoc, h, sumVals]
      ring
    · simp only [addToAssoc, if_neg h, sumVals, List.map_cons, List.sum_cons] at ih ⊢
      rw [ih]
      ring

theorem sumVals_foldl_addToAssoc (l : List (String × ℚ)) :
    ∀ acc, sumVals (l.foldl (fun a p => addToAssoc a p.1 p.2) acc)
      = sumVals acc + sumVals l := by
  induction l with
  | nil => intro acc; simp [sumVals]
  | cons p rest ih =>
    intro acc
    simp only [List.foldl_cons]
    rw [ih, sumVals_addToAssoc]
    simp [sumVals]
    ring

/-- Grouping by key preserves the sum of the values. -/
theorem sumVals_groupSum (l : List (String × ℚ)) :
    sumVals (groupSum l) = sumVals l := by
  unfold groupSum
  rw [sumVals_foldl_addToAssoc]
  simp [sumVals]

/-- When every date parses, the month column carries exactly the amounts. -/
theorem monthsOf_map_snd (exps : List Expense) :
    ∀ ms, monthsOf exps = some ms → ms.map Prod.snd = exps.map Expense.amount := by
  induction exps with
  | nil =>
    intro ms h
    simp only [monthsOf, Option.some.injEq] at h
    subst h
    rfl
  | cons e es ih =>
    intro ms h
    unfold monthsOf at h
    cases hp : parseMonth e.date with
    | none => rw [hp] at h; cases h
    | some m =>
      rw [hp] at h
      cases hr : monthsOf es with
      | none => rw [hr] at h; cases h
      | some rest =>
        rw [hr] at h
        injection h with h
        subst h
        simp [List.map_cons, ih rest hr]

/-- C1: for every nonempty expense set on which the index view aggregation
succeeds, the total equals the sum of the `by_category` values and the sum
of the `by_month` values (exact equality over ℚ, the exact-arithmetic model
of the REAL amounts). -/
theorem aggregate_total_eq_sums (exps : List Expense) (a : Agg)
    (_hne : exps ≠ []) (h : aggregate exps = some a) :
    a.total = sumVals a.by_category ∧ a.total = sumVals a.by_month := by
  unfold aggregate at h
  cases hm : monthsOf exps with
  | none => rw [hm] at h; cases h
  | some ms =>
    rw [hm] at h
    injection h with h
    subst h
    refine ⟨?_, ?_⟩
    · rw [sumVals_groupSum]
      unfold sumVals
      rw [List.map_map]
      rfl
    · rw [sumVals_groupSum]
      unfold sumVals
      rw [monthsOf_map_snd exps ms hm]

/-- The three-row expense set used by the aggregation example of the spec. -/
def sampleExpenses : List Expense :=
  [⟨1, "2024-01-05", "Food", 10, "", 1⟩,
   ⟨2, "2024-01-20", "Food", 5, "", 1⟩,
   ⟨3, "2024-02-01", "Travel", 100, "", 1⟩]

/-- The aggregation the spec expects on `sampleExpenses`. -/
def sampleAgg : Agg :=
  ⟨115, [("Food", 15), ("Travel", 100)], [("2024-01", 15), ("2024-02", 100)]⟩

/-- Witness for `aggregate_total_eq_sums` at the concrete sample set. -/
theorem aggregate_total_eq_sums_witness :
    sampleAgg.total = sumVals sampleAgg.by_category ∧
      sampleAgg.total = sumVals sampleAgg.by_month :=
  aggregate_total_eq_sums sampleExpenses sampleAgg (by decide)
    (by with_unfolding_all decide)

/-- C2: on the example input of the spec the aggregation computes `total = 115`,
`by_category = {Food ↦ 15, Travel ↦ 100}` and
`by_month = {2024-01 ↦ 15, 2024-02 ↦ 100}`. -/
theorem aggregate_sample :
    aggregate sampleExpenses = some sampleAgg := by
  with_unfolding_all decide

/-- C9: an expense whose date fails to parse makes the whole aggregation
fail (the uncaught `pd.to_datetime` error aborts the index view). -/
theorem aggregate_malformed_date (exps : List Expense)
    (h : ∃ e ∈ exps, parseMonth e.date = none) :
    aggregate exps = none := by
  obtain ⟨e, he, hpe⟩ := h
  suffices hm : monthsOf exps = none by unfold aggregate; rw [hm]
  induction exps with
  | nil => cases he
  | cons x xs ih =>
    rcases List.mem_cons.mp he with rfl | hmem
    · simp [monthsOf, hpe]
    · unfold monthsOf
      cases hp : parseMonth x.date with
      | none => rfl
      | some m => rw [ih hmem]

/-- An expense row whose date string is not a calendar date. -/
def badDateExpense : Expense := ⟨1, "not-a-date", "Food", 10, "", 1⟩

/-- Witness for `aggregate_malformed_date` at a concrete malformed date. -/
theorem aggregate_malformed_date_witness :
    aggregate [badDateExpense] = none :=
  aggregate_malformed_date [badDateExpense]
    ⟨badDateExpense, List.mem_singleton.mpr rfl, by with_unfolding_all decide⟩

/-! ## Classifier lemmas -/

/-- The max-scoring fold stays inside the candidate list. -/
theorem foldl_max_mem (score : String → ℚ) (cs : List String) :
    ∀ c, cs.foldl (fun best x => if score best < score x then x else best) c ∈ c :: cs := by
  induction cs with
  | nil => intro c; simp
  | cons y ys ih =>
    intro c
    simp only [List.foldl_cons]
    by_cases h : score c < score y
    · rw [if_pos h]
      exact List.mem_cons_of_mem _ (ih y)
    · rw [if_neg h]
      rcases List.mem_cons.mp (ih c) with hc | hys
      · rw [hc]
        exact List.mem_cons_self _ _
      · exact List.mem_cons_of_mem _ (List.mem_cons_of_mem _ hys)

/-- C3: an empty or whitespace-only description gets no prediction, and on
the add path (empty submitted category) the stored category is then
`"Uncategorized"` — whether `predict_category` returned `None` (whitespace
description) or was never called (empty description). -/
theorem predict_whitespace_none (score : String → String → ℚ)
    (description : String) (h : pyStrip description = "") :
    predict_category score description = none ∧
    ∀ today dateF categoryF amountF uid nextId table,
      pyStrip (categoryF.getD "") = "" →
      ∃ e, add score today dateF categoryF amountF (some description) uid nextId table
            = table ++ [e] ∧ e.category = "Uncategorized" := by
  constructor
  · simp [predict_category, h]
  · intro today dateF categoryF amountF uid nextId table hc
    simp only [add, Option.getD_some, hc]
    by_cases hd : description = ""
    · exact ⟨_, rfl, by simp [hd]⟩
    · exact ⟨_, rfl, by simp [hd, predict_category, h]⟩

/-- Witness for `predict_whitespace_none` on the whitespace description. -/
theorem predict_whitespace_none_witness :
    predict_category (fun _ _ => 0) "   " = none ∧
    ∃ e, add (fun _ _ => 0) "2024-01-01" none none none (some "   ") 1 1 []
          = [] ++ [e] ∧ e.category = "Uncategorized" := by
  have h := predict_whitespace_none (fun _ _ => 0) "   " (by decide)
  exact ⟨h.1, h.2 "2024-01-01" none none none 1 1 [] (by decide)⟩

/-- C4: for every fitted score function (the TF-IDF/logistic-regression
decision scores are one such function) and every description that is not
whitespace-only, `predict_category` returns exactly one label, and that
label belongs to the fixed six-label set; determinism is immediate because
the embedded classifier is a pure function of the corpus-fitted scores and
the input. -/
theorem predict_nonempty_label (score : String → String → ℚ)
    (description : String) (h : ¬ pyStrip description = "") :
    ∃ l, predict_category score description = some l ∧
      l ∈ ["Transport", "Food", "Utilities", "Entertainment", "Groceries", "Travel"] := by
  have hc : classes
      = ["Transport", "Food", "Utilities", "Entertainment", "Groceries", "Travel"] := by
    decide
  unfold predict_category
  rw [if_neg h, hc]
  simp only [argmaxClass]
  exact ⟨_, rfl, foldl_max_mem _ _ _⟩

/-- Witness for `predict_nonempty_label` on a corpus sentence. -/
theorem predict_nonempty_label_witness :
    ∃ l, predict_category (fun _ _ => 0) "Uber ride to work" = some l ∧
      l ∈ ["Transport", "Food", "Utilities", "Entertainment", "Groceries", "Travel"] :=
  predict_nonempty_label (fun _ _ => 0) "Uber ride to work" (by decide)

/-! ## Reply-engine lemmas -/

theorem startsWithL_nil (hay : List Char) : startsWithL hay [] = true := by
  cases hay <;> rfl

theorem listHas_nil_needle (hay : List Char) : listHas hay [] = true := by
  cases hay with
  | nil => rfl
  | cons h t => simp [listHas, startsWithL_nil]

theorem startsWithL_append_self (u b : List Char) : startsWithL (u ++ b) u = true := by
  induction u with
  | nil => exact startsWithL_nil b
  | cons c cs ih => simp [startsWithL, ih]

theorem listHas_append_self (u b : List Char) : listHas (u ++ b) u = true := by
  cases u with
  | nil => exact listHas_nil_needle b
  | cons c cs =>
    simp only [listHas, Bool.or_eq_true]
    exact Or.inl (startsWithL_append_self (c :: cs) b)

theorem listHas_cons (c : Char) (t n : List Char) (h : listHas t n = true) :
    listHas (c :: t) n = true := by
  simp [listHas, h]

theorem listHas_append_left (a : List Char) (rest n : List Char)
    (h : listHas rest n = true) : listHas (a ++ rest) n = true := by
  induction a with
  | nil => exact h
  | cons c cs ih => exact listHas_cons c (cs ++ rest) n ih

/-- A string starting with `u` contains `u`. -/
theorem strContains_left (u b : String) : strContains (u ++ b) u = true := by
  simp only [strContains, String.toList, String.data_append]
  exact listHas_append_self u.data b.data

/-- A string with `u` in the middle contains `u`. -/
theorem strContains_mid (a u b : String) : strContains (a ++ u ++ b) u = true := by
  simp only [strContains, String.toList, String.data_append, List.append_assoc]
  exact listHas_append_left a.data _ _ (listHas_append_self u.data b.data)

/-- Whatever `random.choice` draws satisfies any property all pool entries
satisfy. -/
theorem pick_prop (P : String → Prop) (pool : List String) (r : Nat)
    (hne : pool ≠ []) (h : ∀ s ∈ pool, P s) : P (pick pool r) := by
  unfold pick
  have hl : 0 < pool.length := List.length_pos.mpr hne
  have hr : r % pool.length < pool.length := Nat.mod_lt _ hl
  rw [List.getD_eq_getElem pool _ hr]
  exact h _ (List.getElem_mem hr)

/-- The draw is a pool member. -/
theorem pick_mem (pool : List String) (r : Nat) (hne : pool ≠ []) :
    pick pool r ∈ pool :=
  pick_prop (fun s => s ∈ pool) pool r hne (fun _ hs => hs)

theorem greetings_contain (u : String) (r : Nat) :
    strContains (pick (greetings u) r) u = true := by
  refine pick_prop (fun s => strContains s u = true) (greetings u) r (by simp [greetings]) ?_
  intro s hs
  simp only [greetings, List.mem_cons, List.not_mem_nil, or_false] at hs
  rcases hs with rfl | rfl | rfl
  · exact strContains_mid "Hey " u _
  · exact strContains_mid "Hi " u _
  · exact strContains_mid "Hello " u _

theorem jokes_contain (u : String) (r : Nat) :
    strContains (pick (jokes u) r) u = true := by
  refine pick_prop (fun s => strContains s u = true) (jokes u) r (by simp [jokes]) ?_
  intro s hs
  simp only [jokes, List.mem_cons, List.not_mem_nil, or_false] at hs
  rcases hs with rfl | rfl | rfl
  · exact strContains_mid "😂 Hey " u _
  · exact strContains_mid "🤣 " u _
  · exact strContains_mid "😆 Here\x27s one for you " u _

theorem saving_tips_contain (u : String) (r : Nat) :
    strContains (pick (saving_tips u) r) u = true := by
  refine pick_prop (fun s => strContains s u = true) (saving_tips u) r (by simp [saving_tips]) ?_
  intro s hs
  simp only [saving_tips, List.mem_cons, List.not_mem_nil, or_false] at hs
  rcases hs with rfl | rfl | rfl
  · exact strContains_mid "💡 Tip for you " u _
  · exact strContains_mid "💡 " u _
  · exact strContains_mid "💡 Track your daily spending, " u _

theorem motivation_contains (u : String) (r : Nat) :
    strContains (pick (motivation u) r) u = true := by
  refine pick_prop (fun s => strContains s u = true) (motivation u) r (by simp [motivation]) ?_
  intro s hs
  simp only [motivation, List.mem_cons, List.not_mem_nil, or_false] at hs
  rcases hs with rfl | rfl | rfl
  · exact strContains_mid "🔥 You\x27re doing awesome, " u _
  · exact strContains_mid "🚀 Remember " u _
  · exact strContains_mid "💪 Stay disciplined, " u _

theorem default_responses_contain (u : String) (r : Nat) :
    strContains (pick (default_responses u) r) u = true := by
  refine pick_prop (fun s => strContains s u = true) (default_responses u) r (by simp [default_responses]) ?_
  intro s hs
  simp only [default_responses, List.mem_cons, List.not_mem_nil, or_false] at hs
  rcases hs with rfl | rfl | rfl
  · exact strContains_mid "Hi " u _
  · exact strContains_left u _
  · exact strContains_mid "Want me to suggest a weekly budget for you, " u _

theorem affirmation_contains (u : String) :
    strContains (affirmation u) u = true :=
  strContains_mid "Great, " u _

/-! ## Reply-engine claims -/

/-- C5: a message whose lowercased, trimmed text contains "joke" and none of
"hello", "hi", "hey" always gets a reply drawn from the three-entry joke
pool, whatever the random draw. -/
theorem reply_joke_pool (message username : String) (r : Nat)
    (hj : strContains (pyStrip (strLower message)) "joke" = true)
    (hg : containsAny (pyStrip (strLower message)) ["hello", "hi", "hey"] = false) :
    reply message username r ∈ jokes username := by
  simp only [reply, hg, hj, Bool.false_eq_true, if_false, if_true]
  exact pick_mem (jokes username) r (by simp [jokes])

/-- Witness for `reply_joke_pool` on the example message of the spec. -/
theorem reply_joke_pool_witness :
    reply "tell me a joke" "Sam" 0 ∈ jokes "Sam" :=
  reply_joke_pool "tell me a joke" "Sam" 0 (by decide) (by decide)

/-- C6: a message whose lowercased, trimmed text contains "yes", "ok" or
"sure" and matches none of the four higher-priority intents gets the one
fixed affirmation template: the reply names the user, does not depend on the
random draw, and two calls agree. -/
theorem reply_affirmation_fixed (message username : String) (r r' : Nat)
    (h1 : containsAny (pyStrip (strLower message)) ["hello", "hi", "hey"] = false)
    (h2 : strContains (pyStrip (strLower message)) "joke" = false)
    (h3 : containsAny (pyStrip (strLower message))
            ["save", "control", "spending tips", "reduce expense"] = false)
    (h4 : containsAny (pyStrip (strLower message))
            ["motivate", "encourage", "inspire"] = false)
    (h5 : containsAny (pyStrip (strLower message)) ["yes", "ok", "sure"] = true) :
    reply message username r = affirmation username ∧
    reply message username r = reply message username r' ∧
    strContains (reply message username r) username = true := by
  have e : ∀ s : Nat, reply message username s = affirmation username := by
    intro s
    simp [reply, h1, h2, h3, h4, h5]
  refine ⟨e r, (e r).trans (e r').symm, ?_⟩
  rw [e r]
  exact affirmation_contains username

/-- Witness for `reply_affirmation_fixed` on a concrete affirmation. -/
theorem reply_affirmation_fixed_witness :
    reply "yes please" "Sam" 0 = affirmation "Sam" ∧
    reply "yes please" "Sam" 0 = reply "yes please" "Sam" 1 ∧
    strContains (reply "yes please" "Sam" 0) "Sam" = true :=
  reply_affirmation_fixed "yes please" "Sam" 0 1
    (by decide) (by decide) (by decide) (by decide) (by decide)

/-- C10: every template in all six branches interpolates the username, so
every reply of `ai_coach_chat` contains it, whatever the message, the
username and the random draw. -/
theorem reply_contains_username (message username : String) (r : Nat) :
    strContains (reply message username r) username = true := by
  simp only [reply]
  split
  · exact greetings_contain username r
  · split
    · exact jokes_contain username r
    · split
      · exact saving_tips_contain username r
      · split
        · exact motivation_contains username r
        · split
          · exact affirmation_contains username
          · exact default_responses_contain username r

/-! ## Add/delete claims -/

/-- C7: a missing or unparseable amount field does not reject the request:
the amount falls back to `0.0` and the row is still inserted. -/
theorem add_invalid_amount_inserts (score : String → String → ℚ) (today : String)
    (dateF categoryF amountF descF : Option String) (uid nextId : Nat)
    (table : List Expense) (h : amountF.bind pyFloat = none) :
    ∃ e, add score today dateF categoryF amountF descF uid nextId table
          = table ++ [e] ∧ e.amount = 0 := by
  simp only [add]
  exact ⟨_, rfl, by simp [h]⟩

/-- Witness for `add_invalid_amount_inserts` on a non-numeric amount. -/
theorem add_invalid_amount_inserts_witness :
    ∃ e, add (fun _ _ => 0) "2024-01-01" none none (some "abc") none 1 1 []
          = [] ++ [e] ∧ e.amount = 0 :=
  add_invalid_amount_inserts (fun _ _ => 0) "2024-01-01" none none (some "abc")
    none 1 1 [] (by decide)

/-- C8: deleting an expense id that does not exist for the requesting user
(absent, or owned by someone else) leaves the whole table unchanged — a
silent no-op, not an error. -/
theorem delete_nonowned_noop (table : List Expense) (id uid : Nat)
    (h : ∀ e ∈ table, ¬(e.id = id ∧ e.user_id = uid)) :
    delete table id uid = table := by
  unfold delete
  apply List.filter_eq_self.mpr
  intro e he
  have hh := h e he
  simp only [not_and] at hh
  simp
  tauto

/-- An expense owned by user 2, targeted for deletion by user 3. -/
def otherUsersExpense : Expense := ⟨1, "2024-01-01", "Food", 10, "", 2⟩

/-- Witness for `delete_nonowned_noop`: user 3 deletes an expense of user 2. -/
theorem delete_nonowned_noop_witness :
    delete [otherUsersExpense] 1 3 = [otherUsersExpense] :=
  delete_nonowned_noop [otherUsersExpense] 1 3 (by decide)

end ExpenseTracker
